import Mathlib

/-!
Verification of the RayRabbit multi-agent communication substrate.

The repository ships only the example script `example_basic_rayrabbit.py`;
the substrate it exercises (the `rayrabbit` package: `MessageBus`,
`SimpleAgent`, `Message`, the protocol coordinators) is not part of the
source tree.  Every definition below is therefore a model of that missing
subsystem, built faithfully from the specification's words, and the example
script is used only to fix the concrete scenarios (agent names, triggers,
message payloads).
-/

namespace RayRabbit

/-- Modelled from the spec: missing `rayrabbit` message-type enum
(`REQUEST, RESPONSE, COMMAND, EVENT, ERROR`). -/
inductive MessageType
| REQUEST
| RESPONSE
| COMMAND
| EVENT
| ERROR
deriving DecidableEq

/-- Modelled from the spec: missing `rayrabbit` agent status enum
(`INITIALIZING, READY, BUSY, STOPPED, ERROR`). -/
inductive AgentStatus
| INITIALIZING
| READY
| BUSY
| STOPPED
| ERROR
deriving DecidableEq

/-- Modelled from the spec: missing `rayrabbit` bus status enum
(`NEW, RUNNING, STOPPING, STOPPED`). -/
inductive BusStatus
| NEW
| RUNNING
| STOPPING
| STOPPED
deriving DecidableEq

/-- Modelled from the spec: error taxonomy of §7 for the missing bus code
(`DuplicateAgent`, `NotFound`, `InvalidState`, `Timeout`, `ShuttingDown`);
each structural fault carries the offending id, as §7 requires context. -/
inductive BusError
| DuplicateAgent (id : String)
| NotFound (id : String)
| InvalidState
| Timeout (reqId : Nat)
| ShuttingDown
deriving DecidableEq

/-- Modelled from the spec: a value stored under one key of a message
content mapping ("mapping of string keys to arbitrary values"). -/
inductive Value
| str (s : String)
| num (n : Nat)
| strList (l : List String)
deriving DecidableEq

/-- Look up a key in an association list, first binding wins. -/
def assocFind (k : String) : List (String × α) → Option α
| [] => none
| (k2, v) :: rest => if k2 = k then some v else assocFind k rest

/-- Modelled from the spec: the opaque structured payload of a message —
either a plain text payload (auto-responses reply with a bare string the
round-trip property compares against) or a mapping of string keys to
values. -/
inductive Content
| text (s : String)
| fields (entries : List (String × Value))
deriving DecidableEq

/-- Key lookup on a content payload; a plain-text payload has no keys. -/
def Content.lookup : Content → String → Option Value
| .text _, _ => none
| .fields es, k => assocFind k es

/-- Modelled from the spec: missing `rayrabbit` `Message` value object
(§3 and §6 wire shape); the generated unique `id` and the `timestamp` are
abstracted as naturals. -/
structure Message where
  id : Nat
  sender_id : String
  recipient_id : Option String
  content : Content
  message_type : MessageType
  timestamp : Nat
  correlation_id : Option Nat
deriving DecidableEq

/-- Modelled from the spec: missing `SimpleAgent` variant — identity plus
a trigger→template auto-response table (§4.2). -/
structure SimpleAgent where
  id : String
  name : String
  description : String
  capabilities : List String
  status : AgentStatus
  auto_responses : List (String × String)
deriving DecidableEq

/-- Modelled from the spec: `add_auto_response(trigger, template)` is a
pure local mutation of the agent's trigger table (§4.2). -/
def SimpleAgent.add_auto_response (a : SimpleAgent) (trigger template : String) :
    SimpleAgent :=
  { a with auto_responses := a.auto_responses ++ [(trigger, template)] }

/-- Substitute every occurrence of the literal placeholder `\x7bname\x7d`
in a character stream by the agent name (§4.2: "templates may reference
the agent's own name"). -/
def substName (n : String) : List Char → List Char
| '\x7b' :: 'n' :: 'a' :: 'm' :: 'e' :: '\x7d' :: rest => n.data ++ substName n rest
| c :: rest => c :: substName n rest
| [] => []

/-- Render an auto-response template against the agent's name. -/
def renderTemplate (template name : String) : String :=
  String.mk (substName name template.data)

/-- Substring test used for the trigger match of §4.2. -/
def strContains (haystack needle : String) : Bool :=
  decide (List.IsInfix needle.data haystack.data)

/-- Modelled from the spec: §4.2 REQUEST handling — first trigger that
matches `content.text` exactly or as a substring, rendered against the
agent's name. -/
def SimpleAgent.findAutoResponse (a : SimpleAgent) (text : String) : Option String :=
  (a.auto_responses.find? (fun p => text == p.1 || strContains text p.1)).map
    (fun p => renderTemplate p.2 a.name)

/-- Build a RESPONSE-or-ERROR reply correlated to the request (§3: the
`correlation_id` of a reply equals the originating request id). -/
def mkReply (senderId : String) (req : Message) (c : Content) (mt : MessageType) :
    Message :=
  { id := req.id + 1
    sender_id := senderId
    recipient_id := some req.sender_id
    content := c
    message_type := mt
    timestamp := req.timestamp
    correlation_id := some req.id }

/-- Render an agent status for the `info` command payload. -/
def statusString : AgentStatus → String
| .INITIALIZING => "initializing"
| .READY => "ready"
| .BUSY => "busy"
| .STOPPED => "stopped"
| .ERROR => "error"

/-- Modelled from the spec: the `info` built-in command returns id, name,
description, capability list (with its count) and status (§4.2, §8). -/
def infoContent (a : SimpleAgent) : Content :=
  .fields
    [ ("id", .str a.id)
    , ("name", .str a.name)
    , ("description", .str a.description)
    , ("capabilities", .strList a.capabilities)
    , ("capabilities_count", .num a.capabilities.length)
    , ("status", .str (statusString a.status)) ]

/-- Modelled from the spec: the `help` built-in command returns the list of
registered triggers and the supported commands (§4.2). -/
def helpContent (a : SimpleAgent) : Content :=
  .fields
    [ ("triggers", .strList (a.auto_responses.map Prod.fst))
    , ("commands", .strList ["info", "help"]) ]

/-- Modelled from the spec: COMMAND dispatch of §4.2 — built-ins `info` and
`help`; any other command yields an `UnknownCommand` response, not a
fault. -/
def SimpleAgent.handleCommand (a : SimpleAgent) (msg : Message) (cmd : String) :
    Message :=
  if cmd = "info" then mkReply a.id msg (infoContent a) .RESPONSE
  else if cmd = "help" then mkReply a.id msg (helpContent a) .RESPONSE
  else mkReply a.id msg
    (.fields [("error", .str "UnknownCommand"), ("command", .str cmd)]) .RESPONSE

/-- Modelled from the spec: the §4.2 handling contract of `SimpleAgent` —
trigger matching for REQUEST (with a default "no match" fallback), built-in
command dispatch for COMMAND.  The handler is total: it never faults. -/
def SimpleAgent.handle (a : SimpleAgent) (msg : Message) : Message :=
  match msg.message_type with
  | .REQUEST =>
    let text := match msg.content.lookup "text" with
      | some (.str t) => t
      | _ => ""
    match a.findAutoResponse text with
    | some r => mkReply a.id msg (.text r) .RESPONSE
    | none => mkReply a.id msg (.text "no match") .RESPONSE
  | .COMMAND =>
    match msg.content.lookup "command" with
    | some (.str c) => a.handleCommand msg c
    | _ => a.handleCommand msg ""
  | _ => mkReply a.id msg (.text "unsupported") .RESPONSE

/-- Modelled from the spec: the polymorphic agent contract of §2/§4.2 —
identity, capability set, lifecycle status and a message handler; the
handler is fallible (it "may raise"), so it returns `Except`. -/
structure Agent where
  id : String
  name : String
  description : String
  capabilities : List String
  status : AgentStatus
  handler : Message → Except String Message

/-- View a `SimpleAgent` through the generic agent contract; its handler is
total, so it never faults. -/
def Agent.ofSimple (s : SimpleAgent) : Agent :=
  { id := s.id
    name := s.name
    description := s.description
    capabilities := s.capabilities
    status := s.status
    handler := fun m => .ok (s.handle m) }

/-- Modelled from the spec: one registry entry of the bus — the agent
reference plus the capability snapshot taken at registration (§3). -/
structure Registration where
  agent : Agent
  capabilities : List String

/-- Modelled from the spec: the missing `MessageBus` state — lifecycle
status, the agent registry (insertion-ordered association list), the
capability index (tag → insertion-ordered agent ids) and the
pending-correlation table (ids of in-flight requests, §3). -/
structure MessageBus where
  name : String
  status : BusStatus
  registry : List (String × Registration)
  capability_index : List (String × List String)
  pending : List Nat

/-- A fresh bus in the NEW state. -/
def MessageBus.mkNew (n : String) : MessageBus :=
  { name := n, status := .NEW, registry := [], capability_index := [], pending := [] }

/-- Modelled from the spec: `start()` transitions NEW → RUNNING, is
idempotent on RUNNING and fails with `InvalidState` once STOPPED (§4.1). -/
def MessageBus.start (b : MessageBus) : Except BusError MessageBus :=
  match b.status with
  | .NEW => .ok { b with status := .RUNNING }
  | .RUNNING => .ok b
  | _ => .error .InvalidState

/-- Modelled from the spec: `stop()` moves the bus to STOPPED and is
idempotent; the registry is not cleared (§4.1). -/
def MessageBus.stop (b : MessageBus) : MessageBus :=
  { b with status := .STOPPED }

/-- Add an id under a tag of the capability index, keeping insertion order
and set semantics (§3: the index maps a tag to a set of agent ids). -/
def indexAdd : List (String × List String) → String → String → List (String × List String)
| [], tag, id => [(tag, [id])]
| (t, ids) :: rest, tag, id =>
  if t = tag then (t, if id ∈ ids then ids else ids ++ [id]) :: rest
  else (t, ids) :: indexAdd rest tag id

/-- Remove an agent id from every tag of the capability index. -/
def indexRemove : List (String × List String) → String → List (String × List String)
| [], _ => []
| (t, ids) :: rest, id => (t, ids.filter (fun x => x != id)) :: indexRemove rest id

/-- Remove every binding of a key from an association list. -/
def removeKey : List (String × α) → String → List (String × α)
| [], _ => []
| (k, v) :: rest, id =>
  if k = id then removeKey rest id else (k, v) :: removeKey rest id

/-- The ordered id sequence a capability index holds under a tag. -/
def capList (idx : List (String × List String)) (tag : String) : List String :=
  (assocFind tag idx).getD []

/-- Modelled from the spec: `find_by_capability(tag)` returns the ordered
sequence of agent ids currently indexed under the tag (§4.1). -/
def MessageBus.find_by_capability (b : MessageBus) (tag : String) : List String :=
  capList b.capability_index tag

/-- Fold registering one agent id under every tag of a capability list. -/
def addAll (idx : List (String × List String)) (caps : List String) (id : String) :
    List (String × List String) :=
  caps.foldl (fun i c => indexAdd i c id) idx

/-- Modelled from the spec: `register_agent(id, agent, capabilities)` fails
with `DuplicateAgent` if the id is already present, with `InvalidState` if
the bus is not RUNNING; on success it appends to the registry and grows
the capability index (§4.1, checks in the order the spec lists them). -/
def MessageBus.register_agent (b : MessageBus) (id : String) (agent : Agent)
    (caps : List String) : Except BusError MessageBus :=
  if (assocFind id b.registry).isSome then .error (.DuplicateAgent id)
  else if b.status = .RUNNING then
    .ok { b with
      registry := b.registry ++ [(id, ⟨agent, caps⟩)]
      capability_index := addAll b.capability_index caps id }
  else .error .InvalidState

/-- Modelled from the spec: `unregister_agent(id)` fails with `NotFound` if
absent, else removes the id from registry and capability index (§4.1; the
spec imposes no bus-lifecycle precondition on unregistration). -/
def MessageBus.unregister_agent (b : MessageBus) (id : String) :
    Except BusError MessageBus :=
  if (assocFind id b.registry).isSome then
    .ok { b with
      registry := removeKey b.registry id
      capability_index := indexRemove b.capability_index id }
  else .error (.NotFound id)

/-- The synthetic ERROR-typed message the bus fabricates when a handler
faults during `send_direct` (§4.1/§7). -/
def mkErrorMessage (busName : String) (req : Message) (reason : String) : Message :=
  { id := req.id + 1
    sender_id := busName
    recipient_id := some req.sender_id
    content := .fields [("error", .str reason)]
    message_type := .ERROR
    timestamp := req.timestamp
    correlation_id := some req.id }

/-- Overwrite the stored status of one registered agent. -/
def updateAgentStatus : List (String × Registration) → String → AgentStatus →
    List (String × Registration)
| [], _, _ => []
| (k, v) :: rest, id, st =>
  if k = id then
    (k, { v with agent := { v.agent with status := st } }) :: updateAgentStatus rest id st
  else (k, v) :: updateAgentStatus rest id st

/-- The status the bus currently records for a registered agent id. -/
def MessageBus.agentStatus (b : MessageBus) (id : String) : Option AgentStatus :=
  (assocFind id b.registry).map (fun r => r.agent.status)

/-- Modelled from the spec: `send_direct(message)` — rejects sends unless
the bus is RUNNING (§4.1 `stop` / §5 cancellation: `ShuttingDown`),
resolves the recipient (`NotFound` if unregistered), invokes the handler
and returns its reply with the recipient reset to READY; a handler fault
is converted into a synthetic ERROR-typed reply returned to the caller
(never propagated) with the recipient left in ERROR (§4.1, §7). -/
def MessageBus.send_direct (b : MessageBus) (msg : Message) :
    Except BusError (MessageBus × Message) :=
  if b.status = .RUNNING then
    match msg.recipient_id with
    | none => .error (.NotFound "")
    | some rid =>
      match assocFind rid b.registry with
      | none => .error (.NotFound rid)
      | some reg =>
        match reg.agent.handler msg with
        | .ok resp =>
          .ok ({ b with registry := updateAgentStatus b.registry rid .READY }, resp)
        | .error e =>
          .ok ({ b with registry := updateAgentStatus b.registry rid .ERROR },
            mkErrorMessage b.name msg e)
  else .error .ShuttingDown

/-- Modelled from the spec: the pending-correlation table tracks each
in-flight request id until fulfillment or timeout (§3). -/
def MessageBus.beginRequest (b : MessageBus) (reqId : Nat) : MessageBus :=
  { b with pending := b.pending ++ [reqId] }

/-- Modelled from the spec: on timeout the bus fails with `Timeout` and the
request is removed from the pending-correlation table (§5). -/
def MessageBus.onTimeout (b : MessageBus) (reqId : Nat) : MessageBus × BusError :=
  ({ b with pending := b.pending.filter (fun x => x != reqId) }, .Timeout reqId)

/-- Modelled from the spec: a RESPONSE/ERROR whose `correlation_id` matches
a pending request fulfills it (entry removed, delivered = true); one with
no matching pending correlation is dropped, with no effect (§3, §5). -/
def MessageBus.deliverResponse (b : MessageBus) (resp : Message) :
    MessageBus × Bool :=
  match resp.correlation_id with
  | some cid =>
    if cid ∈ b.pending then
      ({ b with pending := b.pending.filter (fun x => x != cid) }, true)
    else (b, false)
  | none => (b, false)

/-- Modelled from the spec: coordinator lifecycle states of §4.3
(INITIALIZING → RUNNING → STOPPED). -/
inductive CoordStatus
| INITIALIZING
| RUNNING
| STOPPED
deriving DecidableEq

/-- Modelled from the spec: a `ProtocolCoordinator` (A2A-style when an
endpoint is given, MCP-style otherwise) — an identity plus lifecycle
status; it registers itself on the bus at start and unregisters at stop
(§4.3). -/
structure ProtocolCoordinator where
  agent_id : String
  name : String
  description : String
  capabilities : List String
  endpoint : Option String
  status : CoordStatus

/-- A coordinator behaves as an ordinary agent under the §4.2 contract. -/
def Agent.ofCoordinator (c : ProtocolCoordinator) : Agent :=
  Agent.ofSimple
    { id := c.agent_id
      name := c.name
      description := c.description
      capabilities := c.capabilities
      status := .READY
      auto_responses := [] }

/-- Modelled from the spec: coordinator `start()` registers it on the bus;
starting twice is a no-op (§4.3). -/
def ProtocolCoordinator.start (c : ProtocolCoordinator) (b : MessageBus) :
    Except BusError (ProtocolCoordinator × MessageBus) :=
  if c.status = .RUNNING then .ok (c, b)
  else
    match b.register_agent c.agent_id (Agent.ofCoordinator c) c.capabilities with
    | .ok b2 => .ok ({ c with status := .RUNNING }, b2)
    | .error e => .error e

/-- Modelled from the spec: coordinator `stop()` unregisters it from the
bus; stopping an already-stopped coordinator is a no-op (§4.3). -/
def ProtocolCoordinator.stop (c : ProtocolCoordinator) (b : MessageBus) :
    Except BusError (ProtocolCoordinator × MessageBus) :=
  if c.status = .STOPPED then .ok (c, b)
  else
    match b.unregister_agent c.agent_id with
    | .ok b2 => .ok ({ c with status := .STOPPED }, b2)
    | .error e => .error e

/-- Modelled from the spec: the observable dispatch events of §5 — a
`handle` invocation for an agent id starts, or ends. -/
inductive BusEvent
| startHandle (agentId : String)
| endHandle (agentId : String)
deriving DecidableEq

/-- Modelled from the spec: the §5 scheduling discipline — the bus may
start a `handle` invocation for an agent only while that agent is not
BUSY (the bus queues or rejects concurrent sends to a busy recipient),
and an invocation can end only if it is running. -/
def stepOk (busy : List String) : BusEvent → Option (List String)
| .startHandle a => if a ∈ busy then none else some (a :: busy)
| .endHandle a => if a ∈ busy then some (busy.erase a) else none

/-- Run a sequence of dispatch events from a busy-set, failing if any event
violates the §5 discipline. -/
def runEvents (busy : List String) : List BusEvent → Option (List String)
| [] => some busy
| e :: es =>
  match stepOk busy e with
  | none => none
  | some b2 => runEvents b2 es

/-- A trace of dispatch events the bus can actually produce. -/
def validTrace (t : List BusEvent) : Prop :=
  (runEvents [] t).isSome

/-! Concrete scenario from `example_basic_rayrabbit.py`: the agents, the
bus and the messages the example script builds. -/

/-- The example's `agent_001` ("Asistente") with its two auto-responses
(example lines 50–52). -/
def asistente : SimpleAgent :=
  ((SimpleAgent.mk "agent_001" "Asistente" "Agente asistente general" [] .READY
    []).add_auto_response "hola"
      "¡Hola! Soy \x7bname\x7d, tu asistente virtual.").add_auto_response
    "test" "Sistema funcionando correctamente."

/-- The example's `main_bus`, started and with `agent_001` registered
(example lines 43–60). -/
def busMain : MessageBus :=
  { name := "main_bus"
    status := .RUNNING
    registry := [("agent_001", ⟨Agent.ofSimple asistente, asistente.capabilities⟩)]
    capability_index := []
    pending := [] }

/-- The example's first test message: a REQUEST with `content.text = "hola"`
addressed to `agent_001` (example lines 117–122). -/
def msgHola : Message :=
  { id := 1
    sender_id := "system"
    recipient_id := some "agent_001"
    content := .fields [("text", .str "hola")]
    message_type := .REQUEST
    timestamp := 0
    correlation_id := none }

/-- The example's `info` COMMAND to `agent_001` (example lines 208–213). -/
def msgInfo : Message :=
  { id := 2
    sender_id := "system"
    recipient_id := some "agent_001"
    content := .fields [("command", .str "info")]
    message_type := .COMMAND
    timestamp := 0
    correlation_id := none }

/-- A COMMAND carrying an unrecognized command string. -/
def msgBadCmd : Message :=
  { id := 3
    sender_id := "system"
    recipient_id := some "agent_001"
    content := .fields [("command", .str "frobnicate")]
    message_type := .COMMAND
    timestamp := 0
    correlation_id := none }

/-- A REQUEST addressed to an id nobody registered. -/
def msgGhost : Message :=
  { id := 4
    sender_id := "system"
    recipient_id := some "ghost"
    content := .fields [("text", .str "hola")]
    message_type := .REQUEST
    timestamp := 0
    correlation_id := none }

/-- An agent whose handler always faults, to exercise the bus's fault
isolation. -/
def faultyAgent : Agent :=
  { id := "agent_boom"
    name := "Boom"
    description := "handler always raises"
    capabilities := []
    status := .READY
    handler := fun _ => .error "boom" }

/-- A running bus holding only the faulty agent. -/
def busFaulty : MessageBus :=
  { name := "main_bus"
    status := .RUNNING
    registry := [("agent_boom", ⟨faultyAgent, []⟩)]
    capability_index := []
    pending := [] }

/-- A REQUEST addressed to the faulty agent. -/
def msgBoom : Message :=
  { id := 5
    sender_id := "system"
    recipient_id := some "agent_boom"
    content := .fields [("text", .str "hola")]
    message_type := .REQUEST
    timestamp := 0
    correlation_id := none }

/-- A running bus with an empty registry. -/
def busFresh : MessageBus :=
  { name := "main_bus"
    status := .RUNNING
    registry := []
    capability_index := []
    pending := [] }

/-- The example's `agent_002` ("Especialista"), here carrying a capability
set to exercise the capability index. -/
def especialista : SimpleAgent :=
  (SimpleAgent.mk "agent_002" "Especialista" "Agente especialista en tareas"
    ["chat", "tasks"] .READY []).add_auto_response "status"
    "Estado: Operativo y listo para tareas."

/-- `busFresh` after registering `agent_002` under tags `chat` and
`tasks`. -/
def busReg : MessageBus :=
  { name := "main_bus"
    status := .RUNNING
    registry := [("agent_002", ⟨Agent.ofSimple especialista, ["chat", "tasks"]⟩)]
    capability_index := [("chat", ["agent_002"]), ("tasks", ["agent_002"])]
    pending := [] }

/-- `busReg` after unregistering `agent_002` again. -/
def busUnreg : MessageBus :=
  { name := "main_bus"
    status := .RUNNING
    registry := []
    capability_index := [("chat", []), ("tasks", [])]
    pending := [] }

/-- A running bus with one in-flight request (correlation id 7) pending. -/
def busPending : MessageBus :=
  { name := "main_bus"
    status := .RUNNING
    registry := []
    capability_index := []
    pending := [7] }

/-- A late RESPONSE correlated to request 7. -/
def lateResp : Message :=
  { id := 9
    sender_id := "agent_001"
    recipient_id := some "system"
    content := .text "late"
    message_type := .RESPONSE
    timestamp := 3
    correlation_id := some 7 }

/-- The example's A2A coordinator, running (example lines 66–74). -/
def a2aCoord : ProtocolCoordinator :=
  { agent_id := "a2a_coordinator"
    name := "A2A Coordinator"
    description := "Coordinador de protocolo A2A"
    capabilities := ["a2a_communication", "agent_discovery"]
    endpoint := some "http://localhost:8080"
    status := .RUNNING }

/-- A running bus on which the A2A coordinator is registered. -/
def busWithCoord : MessageBus :=
  { name := "main_bus"
    status := .RUNNING
    registry := [("a2a_coordinator", ⟨Agent.ofCoordinator a2aCoord, a2aCoord.capabilities⟩)]
    capability_index := []
    pending := [] }

/-! Helper lemmas about the registry, the capability index and traces. -/

theorem assocFind_updateAgentStatus (reg : List (String × Registration))
    (id : String) (st : AgentStatus) :
    assocFind id (updateAgentStatus reg id st) =
      (assocFind id reg).map
        (fun r => { r with agent := { r.agent with status := st } }) := by
  induction reg with
  | nil => rfl
  | cons p rest ih =>
    obtain ⟨k, v⟩ := p
    by_cases h : k = id
    · subst h
      simp [updateAgentStatus, assocFind]
    · simp [updateAgentStatus, assocFind, h, ih]

theorem capList_indexAdd_self (idx : List (String × List String)) (tag id : String) :
    capList (indexAdd idx tag id) tag =
      if id ∈ capList idx tag then capList idx tag else capList idx tag ++ [id] := by
  induction idx with
  | nil => simp [capList, indexAdd, assocFind]
  | cons p rest ih =>
    obtain ⟨t, ids⟩ := p
    by_cases h : t = tag
    · subst h
      simp [capList, indexAdd, assocFind]
    · simp only [indexAdd, if_neg h]
      simp [capList, assocFind, h] at ih ⊢
      exact ih

theorem capList_indexAdd_other (idx : List (String × List String)) (tag id t : String)
    (h : t ≠ tag) : capList (indexAdd idx tag id) t = capList idx t := by
  induction idx with
  | nil => simp [capList, indexAdd, assocFind, Ne.symm h]
  | cons p rest ih =>
    obtain ⟨t2, ids⟩ := p
    by_cases h2 : t2 = tag
    · subst h2
      simp [capList, indexAdd, assocFind, Ne.symm h]
    · simp only [indexAdd, if_neg h2]
      by_cases h3 : t2 = t
      · subst h3
        simp [capList, assocFind]
      · simp [capList, assocFind, h3] at ih ⊢
        exact ih

theorem mem_capList_indexAdd (idx : List (String × List String)) (tag id x c : String)
    (hx : x ∈ capList idx c) : x ∈ capList (indexAdd idx tag id) c := by
  by_cases h : c = tag
  · subst h
    rw [capList_indexAdd_self]
    split
    · exact hx
    · exact List.mem_append_left _ hx
  · rw [capList_indexAdd_other idx tag id c h]
    exact hx

theorem mem_capList_addAll_of_mem (caps : List String)
    (idx : List (String × List String)) (x c id : String)
    (hx : x ∈ capList idx c) : x ∈ capList (addAll idx caps id) c := by
  induction caps generalizing idx with
  | nil => exact hx
  | cons t rest ih =>
    exact ih (indexAdd idx t id) (mem_capList_indexAdd idx t id x c hx)

theorem mem_capList_addAll (caps : List String) (idx : List (String × List String))
    (c id : String) (hc : c ∈ caps) : id ∈ capList (addAll idx caps id) c := by
  induction caps generalizing idx with
  | nil => cases hc
  | cons t rest ih =>
    rcases List.mem_cons.mp hc with h | h
    · subst h
      refine mem_capList_addAll_of_mem rest (indexAdd idx c id) id c id ?_
      rw [capList_indexAdd_self]
      split
      · assumption
      · exact List.mem_append_right _ (List.mem_singleton.mpr rfl)
    · exact ih (indexAdd idx t id) h

theorem capList_addAll_stable (caps : List String) (idx : List (String × List String))
    (c id : String) (hmem : id ∈ capList idx c) :
    capList (addAll idx caps id) c = capList idx c := by
  induction caps generalizing idx with
  | nil => rfl
  | cons t rest ih =>
    by_cases h : t = c
    · subst h
      have hsame : capList (indexAdd idx t id) t = capList idx t := by
        rw [capList_indexAdd_self, if_pos hmem]
      rw [show addAll idx (t :: rest) id = addAll (indexAdd idx t id) rest id from rfl,
        ih (indexAdd idx t id) (hsame ▸ hmem), hsame]
    · have hsame : capList (indexAdd idx t id) c = capList idx c :=
        capList_indexAdd_other idx t id c (fun e => h e.symm)
      rw [show addAll idx (t :: rest) id = addAll (indexAdd idx t id) rest id from rfl,
        ih (indexAdd idx t id) (hsame ▸ hmem), hsame]

theorem capList_addAll_new (caps : List String) (idx : List (String × List String))
    (c id : String) (hc : c ∈ caps) (hnew : id ∉ capList idx c) :
    capList (addAll idx caps id) c = capList idx c ++ [id] := by
  induction caps generalizing idx with
  | nil => cases hc
  | cons t rest ih =>
    by_cases h : t = c
    · subst h
      have hadd : capList (indexAdd idx t id) t = capList idx t ++ [id] := by
        rw [capList_indexAdd_self, if_neg hnew]
      rw [show addAll idx (t :: rest) id = addAll (indexAdd idx t id) rest id from rfl,
        capList_addAll_stable rest (indexAdd idx t id) t id
          (hadd ▸ List.mem_append_right _ (List.mem_singleton.mpr rfl)), hadd]
    · have hc2 : c ∈ rest := by
        rcases List.mem_cons.mp hc with h2 | h2
        · exact absurd h2.symm h
        · exact h2
      have hsame : capList (indexAdd idx t id) c = capList idx c :=
        capList_indexAdd_other idx t id c (fun e => h e.symm)
      rw [show addAll idx (t :: rest) id = addAll (indexAdd idx t id) rest id from rfl,
        ih (indexAdd idx t id) hc2 (hsame ▸ hnew), hsame]

theorem capList_indexRemove (idx : List (String × List String)) (id c : String) :
    capList (indexRemove idx id) c = (capList idx c).filter (fun x => x != id) := by
  induction idx with
  | nil => simp [capList, indexRemove, assocFind]
  | cons p rest ih =>
    obtain ⟨t, ids⟩ := p
    by_cases h : t = c
    · subst h
      simp [capList, indexRemove, assocFind]
    · simp [capList, indexRemove, assocFind, h] at ih ⊢
      exact ih

theorem not_mem_capList_indexRemove (idx : List (String × List String)) (id c : String) :
    id ∉ capList (indexRemove idx id) c := by
  rw [capList_indexRemove]
  intro h
  have := List.mem_filter.mp h
  simp at this

theorem runEvents_append (busy : List String) (xs ys : List BusEvent) :
    runEvents busy (xs ++ ys) =
      match runEvents busy xs with
      | none => none
      | some b2 => runEvents b2 ys := by
  induction xs generalizing busy with
  | nil => rfl
  | cons e xs ih =>
    simp only [List.cons_append, runEvents]
    cases stepOk busy e with
    | none => rfl
    | some b2 => exact ih b2

theorem busy_persists (q : List BusEvent) (busy busy2 : List String) (a : String)
    (hmem : a ∈ busy) (hrun : runEvents busy q = some busy2)
    (hnoend : BusEvent.endHandle a ∉ q) : a ∈ busy2 := by
  induction q generalizing busy with
  | nil =>
    simp only [runEvents, Option.some.injEq] at hrun
    exact hrun ▸ hmem
  | cons e q ih =>
    simp only [runEvents] at hrun
    cases e with
    | startHandle x =>
      by_cases hx : x ∈ busy
      · simp [stepOk, hx] at hrun
      · simp only [stepOk, if_neg hx] at hrun
        exact ih (x :: busy) (List.mem_cons_of_mem x hmem) hrun
          (fun hc => hnoend (List.mem_cons_of_mem _ hc))
    | endHandle x =>
      have hxa : x ≠ a := by
        intro he
        subst he
        exact hnoend (List.mem_cons_self _ _)
      by_cases hx : x ∈ busy
      · simp only [stepOk, if_pos hx] at hrun
        exact ih (busy.erase x) ((List.mem_erase_of_ne (Ne.symm hxa)).mpr hmem) hrun
          (fun hc => hnoend (List.mem_cons_of_mem _ hc))
      · simp [stepOk, hx] at hrun

theorem no_second_start_before_end (q r : List BusEvent) (b1 : List String)
    (a : String)
    (h : (runEvents b1
      (BusEvent.startHandle a :: (q ++ BusEvent.startHandle a :: r))).isSome) :
    BusEvent.endHandle a ∈ q := by
  by_contra hno
  simp only [runEvents] at h
  cases hs : stepOk b1 (BusEvent.startHandle a) with
  | none => rw [hs] at h; simp at h
  | some b2 =>
    rw [hs] at h
    dsimp only at h
    have hb2 : b2 = a :: b1 := by
      by_cases hmem : a ∈ b1
      · simp [stepOk, hmem] at hs
      · simp only [stepOk, if_neg hmem, Option.some.injEq] at hs
        exact hs.symm
    rw [runEvents_append] at h
    cases hq : runEvents b2 q with
    | none => rw [hq] at h; simp at h
    | some b3 =>
      rw [hq] at h
      dsimp only at h
      have ha3 : a ∈ b3 :=
        busy_persists q b2 b3 a (hb2 ▸ List.mem_cons_self a b1) hq hno
      simp only [runEvents, stepOk, if_pos ha3] at h
      simp at h

/-! The claims. -/

/-- Claim C1: for a `SimpleAgent` named "Asistente" whose first configured
auto-response is `add_auto_response("hola", "¡Hola! Soy \x7bname\x7d, tu
asistente virtual.")`, sending it (via `MessageBus.send_direct`) a REQUEST
whose `content.text` equals "hola" returns a RESPONSE message whose content
equals "¡Hola! Soy Asistente, tu asistente virtual." — the `\x7bname\x7d`
placeholder substituted with the agent's name. -/
theorem c1_hola_round_trip (s : SimpleAgent) (b : MessageBus) (m : Message)
    (rid : String) (caps : List String) (rest : List (String × String))
    (hname : s.name = "Asistente")
    (hauto : s.auto_responses =
      ("hola", "¡Hola! Soy \x7bname\x7d, tu asistente virtual.") :: rest)
    (hbus : b.status = .RUNNING)
    (hrecip : m.recipient_id = some rid)
    (hreg : assocFind rid b.registry = some ⟨Agent.ofSimple s, caps⟩)
    (htype : m.message_type = .REQUEST)
    (htext : m.content.lookup "text" = some (.str "hola")) :
    ∃ b2 resp, b.send_direct m = .ok (b2, resp) ∧
      resp.message_type = .RESPONSE ∧
      resp.content = .text "¡Hola! Soy Asistente, tu asistente virtual." := by
  simp only [MessageBus.send_direct, hbus, hrecip, hreg, if_pos]
  simp only [Agent.ofSimple, SimpleAgent.handle, htype, htext]
  simp only [SimpleAgent.findAutoResponse, hauto, List.find?]
  norm_num
  simp only [renderTemplate, hname]
  refine ⟨_, _, ⟨rfl, rfl⟩, rfl, ?_⟩
  rfl

/-- Witness for C1: the example's own scenario — "Asistente" on `main_bus`
answering the "hola" request. -/
theorem c1_hola_round_trip_witness :
    ∃ b2 resp, busMain.send_direct msgHola = .ok (b2, resp) ∧
      resp.message_type = .RESPONSE ∧
      resp.content = .text "¡Hola! Soy Asistente, tu asistente virtual." :=
  c1_hola_round_trip asistente busMain msgHola "agent_001"
    asistente.capabilities [("test", "Sistema funcionando correctamente.")]
    rfl rfl rfl rfl rfl rfl rfl

/-- Claim C2: a handler fault during `send_direct` never propagates to the
caller — the bus returns a synthetic ERROR-typed message as its result and
the recipient's recorded status afterwards is READY when the handler
returned normally, or ERROR when it faulted. -/
theorem c2_handler_fault_isolated (b : MessageBus) (m : Message) (rid : String)
    (reg : Registration)
    (hbus : b.status = .RUNNING)
    (hrecip : m.recipient_id = some rid)
    (hreg : assocFind rid b.registry = some reg) :
    (∀ e, reg.agent.handler m = .error e →
      ∃ b2 resp, b.send_direct m = .ok (b2, resp) ∧
        resp.message_type = .ERROR ∧ b2.agentStatus rid = some .ERROR) ∧
    (∀ r, reg.agent.handler m = .ok r →
      ∃ b2, b.send_direct m = .ok (b2, r) ∧ b2.agentStatus rid = some .READY) := by
  constructor
  · intro e he
    simp only [MessageBus.send_direct, hbus, hrecip, hreg, he, if_pos]
    refine ⟨_, _, rfl, rfl, ?_⟩
    simp [MessageBus.agentStatus, assocFind_updateAgentStatus, hreg]
  · intro r hr
    simp only [MessageBus.send_direct, hbus, hrecip, hreg, hr, if_pos]
    refine ⟨_, rfl, ?_⟩
    simp [MessageBus.agentStatus, assocFind_updateAgentStatus, hreg]

/-- Witness for C2: the always-faulting agent on `busFaulty` — the send
returns, carries an ERROR-typed message and the agent ends in ERROR. -/
theorem c2_handler_fault_isolated_witness :
    ∃ b2 resp, busFaulty.send_direct msgBoom = .ok (b2, resp) ∧
      resp.message_type = .ERROR ∧ b2.agentStatus "agent_boom" = some .ERROR :=
  (c2_handler_fault_isolated busFaulty msgBoom "agent_boom" ⟨faultyAgent, []⟩
    rfl rfl rfl).1 "boom" rfl

/-- Claim C3: when a `send_direct` times out the bus fails with `Timeout`,
the request's entry is removed from the pending-correlation table, and a
late response arriving afterwards is dropped with no observable effect on
the bus state. -/
theorem c3_timeout_drops_late_response (b : MessageBus) (reqId : Nat)
    (resp : Message) (hcorr : resp.correlation_id = some reqId) :
    (b.onTimeout reqId).2 = .Timeout reqId ∧
    reqId ∉ (b.onTimeout reqId).1.pending ∧
    (b.onTimeout reqId).1.deliverResponse resp = ((b.onTimeout reqId).1, false) := by
  have hmem : reqId ∉ (b.onTimeout reqId).1.pending := by
    simp [MessageBus.onTimeout, List.mem_filter]
  refine ⟨rfl, hmem, ?_⟩
  simp [MessageBus.deliverResponse, hcorr, hmem]

/-- Witness for C3: request 7 times out on `busPending` and the late
response correlated to it is dropped. -/
theorem c3_timeout_drops_late_response_witness :
    (busPending.onTimeout 7).2 = .Timeout 7 ∧
    7 ∉ (busPending.onTimeout 7).1.pending ∧
    (busPending.onTimeout 7).1.deliverResponse lateResp =
      ((busPending.onTimeout 7).1, false) :=
  c3_timeout_drops_late_response busPending 7 lateResp rfl

/-- Claim C4: the bus serializes delivery to any one recipient — in every
valid dispatch trace, a second `handle` invocation for the same agent id
can start only after the first one has ended, so no two `handle`
invocations for the same agent id run simultaneously. -/
theorem c4_same_recipient_serialized (p q r : List BusEvent) (a : String)
    (h : validTrace
      (p ++ (BusEvent.startHandle a :: (q ++ BusEvent.startHandle a :: r)))) :
    BusEvent.endHandle a ∈ q := by
  unfold validTrace at h
  rw [runEvents_append] at h
  cases hp : runEvents [] p with
  | none => rw [hp] at h; simp at h
  | some b1 =>
    rw [hp] at h
    dsimp only at h
    exact no_second_start_before_end q r b1 a h

/-- Witness for C4: the trace start–end–start for `agent_001` is valid, and
the theorem finds the completion between the two starts. -/
theorem c4_same_recipient_serialized_witness :
    validTrace
      ([] ++ (BusEvent.startHandle "agent_001" ::
        ([BusEvent.endHandle "agent_001"] ++ BusEvent.startHandle "agent_001" :: []))) ∧
    BusEvent.endHandle "agent_001" ∈ [BusEvent.endHandle "agent_001"] :=
  ⟨by rfl,
    c4_same_recipient_serialized [] [BusEvent.endHandle "agent_001"] [] "agent_001"
      (by rfl)⟩

/-- Claim C5: whenever an agent id is already present in the registry,
`register_agent` with that id fails with `DuplicateAgent`; being a fault,
it produces no successor state, so the existing registration and
capability index are untouched. -/
theorem c5_duplicate_register_fails (b : MessageBus) (id : String) (a : Agent)
    (caps : List String) (hdup : (assocFind id b.registry).isSome) :
    b.register_agent id a caps = .error (.DuplicateAgent id) := by
  simp [MessageBus.register_agent, hdup]

/-- Witness for C5: re-registering `agent_001` on `busMain` fails with
`DuplicateAgent`. -/
theorem c5_duplicate_register_fails_witness :
    busMain.register_agent "agent_001" (Agent.ofSimple asistente)
      asistente.capabilities = .error (.DuplicateAgent "agent_001") :=
  c5_duplicate_register_fails busMain "agent_001" (Agent.ofSimple asistente)
    asistente.capabilities rfl

/-- Claim C6: `send_direct` to a recipient id absent from the registry of a
running bus fails with `NotFound`; being a fault, it produces no successor
state, so registry and capability index are untouched. -/
theorem c6_send_unregistered_not_found (b : MessageBus) (m : Message)
    (rid : String)
    (hbus : b.status = .RUNNING)
    (hrecip : m.recipient_id = some rid)
    (habsent : assocFind rid b.registry = none) :
    b.send_direct m = .error (.NotFound rid) := by
  simp [MessageBus.send_direct, hbus, hrecip, habsent]

/-- Witness for C6: sending to the unknown id "ghost" on `busMain` fails
with `NotFound`. -/
theorem c6_send_unregistered_not_found_witness :
    busMain.send_direct msgGhost = .error (.NotFound "ghost") :=
  c6_send_unregistered_not_found busMain msgGhost "ghost" rfl rfl rfl

/-- Claim C7: after a successful `register_agent` with capability set
`caps`, `find_by_capability c` contains the agent's id for every tag in
`caps` (appended last, preserving insertion order, whenever the id was not
yet indexed), and after a successful `unregister_agent` of that id no
`find_by_capability` result contains it any more. -/
theorem c7_capability_index_tracks_registration (b : MessageBus) (id : String)
    (agent : Agent) (caps : List String) (b2 : MessageBus)
    (hreg : b.register_agent id agent caps = .ok b2) :
    (∀ c ∈ caps, id ∈ b2.find_by_capability c) ∧
    (∀ c ∈ caps, id ∉ b.find_by_capability c →
      b2.find_by_capability c = b.find_by_capability c ++ [id]) ∧
    (∀ b3, b2.unregister_agent id = .ok b3 →
      ∀ c, id ∉ b3.find_by_capability c) := by
  unfold MessageBus.register_agent at hreg
  by_cases hdup : (assocFind id b.registry).isSome
  · simp [hdup] at hreg
  · rw [if_neg hdup] at hreg
    by_cases hrun : b.status = .RUNNING
    · rw [if_pos hrun, Except.ok.injEq] at hreg
      subst hreg
      refine ⟨?_, ?_, ?_⟩
      · intro c hc
        exact mem_capList_addAll caps b.capability_index c id hc
      · intro c hc hnew
        exact capList_addAll_new caps b.capability_index c id hc hnew
      · intro b3 h3 c
        unfold MessageBus.unregister_agent at h3
        by_cases hfound : (assocFind id
            (b.registry ++ [(id, ⟨agent, caps⟩)])).isSome
        · rw [if_pos hfound, Except.ok.injEq] at h3
          subst h3
          exact not_mem_capList_indexRemove _ id c
        · simp [hfound] at h3
    · simp [hrun] at hreg

/-- Witness for C7: registering `agent_002` with tags `chat` and `tasks`
on a fresh bus indexes it under both (in insertion order), and
unregistering removes it from both. -/
theorem c7_capability_index_tracks_registration_witness :
    ("agent_002" ∈ busReg.find_by_capability "chat" ∧
      "agent_002" ∈ busReg.find_by_capability "tasks") ∧
    busReg.find_by_capability "chat" =
      busFresh.find_by_capability "chat" ++ ["agent_002"] ∧
    ("agent_002" ∉ busUnreg.find_by_capability "chat" ∧
      "agent_002" ∉ busUnreg.find_by_capability "tasks") := by
  have H := c7_capability_index_tracks_registration busFresh "agent_002"
    (Agent.ofSimple especialista) ["chat", "tasks"] busReg rfl
  exact ⟨⟨H.1 "chat" (by decide), H.1 "tasks" (by decide)⟩,
    H.2.1 "chat" (by decide) (by decide),
    ⟨H.2.2 busUnreg rfl "chat", H.2.2 busUnreg rfl "tasks"⟩⟩

/-- Claim C8: sending a registered `SimpleAgent` a COMMAND message with
`content.command = "info"` yields a RESPONSE message whose content carries
that agent's id, name and current capability count. -/
theorem c8_info_command_reports_identity (b : MessageBus) (m : Message)
    (rid : String) (s : SimpleAgent) (caps : List String)
    (hbus : b.status = .RUNNING)
    (hrecip : m.recipient_id = some rid)
    (hreg : assocFind rid b.registry = some ⟨Agent.ofSimple s, caps⟩)
    (htype : m.message_type = .COMMAND)
    (hcmd : m.content.lookup "command" = some (.str "info")) :
    ∃ b2 resp, b.send_direct m = .ok (b2, resp) ∧
      resp.message_type = .RESPONSE ∧
      resp.content.lookup "id" = some (.str s.id) ∧
      resp.content.lookup "name" = some (.str s.name) ∧
      resp.content.lookup "capabilities_count" =
        some (.num s.capabilities.length) := by
  simp only [MessageBus.send_direct, hbus, hrecip, hreg, if_pos]
  simp only [Agent.ofSimple, SimpleAgent.handle, htype, hcmd]
  refine ⟨_, _, rfl, rfl, ?_, ?_, ?_⟩ <;> rfl

/-- Witness for C8: the example's `info` command on `agent_001` reports its
id, name and capability count. -/
theorem c8_info_command_reports_identity_witness :
    ∃ b2 resp, busMain.send_direct msgInfo = .ok (b2, resp) ∧
      resp.message_type = .RESPONSE ∧
      resp.content.lookup "id" = some (.str asistente.id) ∧
      resp.content.lookup "name" = some (.str asistente.name) ∧
      resp.content.lookup "capabilities_count" =
        some (.num asistente.capabilities.length) :=
  c8_info_command_reports_identity busMain msgInfo "agent_001" asistente
    asistente.capabilities rfl rfl rfl rfl rfl

/-- Claim C9: a COMMAND whose command string is recognized by no built-in
yields an `UnknownCommand`-kind RESPONSE — a normal response, not a fault —
and the exchange leaves the agent's status READY, never ERROR. -/
theorem c9_unknown_command_is_normal_response (b : MessageBus) (m : Message)
    (rid : String) (s : SimpleAgent) (caps : List String) (cmd : String)
    (hbus : b.status = .RUNNING)
    (hrecip : m.recipient_id = some rid)
    (hreg : assocFind rid b.registry = some ⟨Agent.ofSimple s, caps⟩)
    (htype : m.message_type = .COMMAND)
    (hcmd : m.content.lookup "command" = some (.str cmd))
    (hinfo : cmd ≠ "info") (hhelp : cmd ≠ "help") :
    ∃ b2 resp, b.send_direct m = .ok (b2, resp) ∧
      resp.message_type = .RESPONSE ∧
      resp.content.lookup "error" = some (.str "UnknownCommand") ∧
      b2.agentStatus rid = some .READY ∧
      b2.agentStatus rid ≠ some .ERROR := by
  simp only [MessageBus.send_direct, hbus, hrecip, hreg, if_pos]
  simp only [Agent.ofSimple, SimpleAgent.handle, htype, hcmd]
  simp only [SimpleAgent.handleCommand, if_neg hinfo, if_neg hhelp]
  refine ⟨_, _, rfl, rfl, rfl, ?_, ?_⟩
  · simp [MessageBus.agentStatus, assocFind_updateAgentStatus, hreg]
  · simp [MessageBus.agentStatus, assocFind_updateAgentStatus, hreg]

/-- Witness for C9: the unrecognized command "frobnicate" on `agent_001`
yields an UnknownCommand response and leaves the agent READY. -/
theorem c9_unknown_command_is_normal_response_witness :
    ∃ b2 resp, busMain.send_direct msgBadCmd = .ok (b2, resp) ∧
      resp.message_type = .RESPONSE ∧
      resp.content.lookup "error" = some (.str "UnknownCommand") ∧
      b2.agentStatus "agent_001" = some .READY ∧
      b2.agentStatus "agent_001" ≠ some .ERROR :=
  c9_unknown_command_is_normal_response busMain msgBadCmd "agent_001" asistente
    asistente.capabilities "frobnicate" rfl rfl rfl rfl rfl (by decide) (by decide)

/-- Claim C10: stopping a protocol coordinator that is registered on the
bus succeeds (no fault) even when the bus has already been stopped, as in
the example's cleanup order (`message_bus.stop()` before the protocol
stops). -/
theorem c10_coordinator_stop_after_bus_stop (c : ProtocolCoordinator)
    (b : MessageBus) (hreg : (assocFind c.agent_id b.registry).isSome) :
    ∃ c2 b2, c.stop (b.stop) = .ok (c2, b2) ∧ c2.status = .STOPPED := by
  by_cases h : c.status = .STOPPED
  · exact ⟨c, b.stop, by simp [ProtocolCoordinator.stop, h], h⟩
  · simp only [ProtocolCoordinator.stop, if_neg h]
    have hreg2 : (assocFind c.agent_id (b.stop).registry).isSome = true := hreg
    simp only [MessageBus.unregister_agent, hreg2, if_pos]
    exact ⟨_, _, rfl, rfl⟩

/-- Witness for C10: the example's A2A coordinator stops cleanly after the
bus it is registered on has been stopped. -/
theorem c10_coordinator_stop_after_bus_stop_witness :
    ∃ c2 b2, a2aCoord.stop (busWithCoord.stop) = .ok (c2, b2) ∧
      c2.status = .STOPPED :=
  c10_coordinator_stop_after_bus_stop a2aCoord busWithCoord rfl

end RayRabbit
